import Mathlib

set_option linter.unusedVariables false
set_option autoImplicit false

/-
Verification of the I2C EEPROM driver in
src/ICE_and_Homeworks/peripherals/c/eeprom.c (repository kwilson33/ECE353).

The driver orchestrates byte-level transactions against an MCP24LC32AT
EEPROM over a two-wire bus.  The bus primitives (i2cSetSlaveAddr,
i2cSendByte, i2cGetByte, I2CMasterBusy, I2CMasterAdrAck,
i2cVerifyBaseAddr and the master initialisation call) live in i2c.c,
which is not part of this repository snapshot; following the
specification they are modelled here as a simulated (mock) bus: an
EEPROM memory array together with an address-latch state machine, a
status oracle giving the result of each successive bus operation, an
explicit list of address-acknowledgment responses driving the
write-complete poll, and a log of every call made on the bus.

The driver functions themselves (eeprom_wait_for_write,
eeprom_byte_write, eeprom_byte_read, eeprom_init, write_to_eeprom,
read_from_eprom and the sequential read-back loop of
eeprom_init_write_read) are translated statement by statement from
eeprom.c.  The unbounded do-while poll of eeprom_wait_for_write is
modelled by structural recursion on the finite list of acknowledgment
responses; exhausting the list without an acknowledgment yields `none`,
representing the unbounded blocking of the C code on a device that
never acknowledges.
-/

/-- Transaction status enumeration of the bus layer (i2c_status_t).
Only I2C_OK and I2C_INVALID_BASE are named by eeprom.c; the remaining
constructors stand for the other members of the taxonomy the
specification lists (slave-no-acknowledge, arbitration-lost, generic
controller error). -/
inductive I2CStatus where
  | ok
  | invalidBase
  | adrAckFail
  | arbLost
  | error
  deriving DecidableEq, Repr

/-- Transfer direction selected by i2cSetSlaveAddr (I2C_WRITE / I2C_READ). -/
inductive RW where
  | write
  | read
  deriving DecidableEq, Repr

/-- One observable call on the mock bus, recorded in the call log. -/
inductive BusOp where
  | setSlaveAddr (dev : Nat) (rw : RW)
  | sendByte (data : Nat) (flags : Nat)
  | getByte (flags : Nat)
  deriving DecidableEq, Repr

/-- Framing flag I2C_MCS_RUN (bit 0 of the master control word). -/
def I2C_MCS_RUN : Nat := 1

/-- Framing flag I2C_MCS_START (bit 1 of the master control word). -/
def I2C_MCS_START : Nat := 2

/-- Framing flag I2C_MCS_STOP (bit 2 of the master control word). -/
def I2C_MCS_STOP : Nat := 4

/-- State of the mock bus and of the EEPROM device behind it.
  mem      : the 4096-byte EEPROM array (indexed by the 12-bit pointer);
  hiAddr   : high address byte latched since the last START in write mode;
  phase    : number of address bytes received since the last START
             (0 = expecting high byte, 1 = expecting low byte,
              2 or more = address complete, further bytes are data);
  pointer  : the 12-bit memory pointer decoded from the two address bytes;
  mode     : direction selected by the last i2cSetSlaveAddr call;
  statuses : oracle giving the status returned by the n-th bus operation;
  opIdx    : number of bus operations performed so far;
  log      : the observable mock call log. -/
structure BusState where
  mem : Nat → Nat
  hiAddr : Nat
  phase : Nat
  pointer : Nat
  mode : RW
  statuses : Nat → I2CStatus
  opIdx : Nat
  log : List BusOp

/-- Draw the status of the next bus operation from the oracle. -/
def nextStatus (st : BusState) : I2CStatus × BusState :=
  (st.statuses st.opIdx, { st with opIdx := st.opIdx + 1 })

/-- Modelled from the spec: i2cVerifyBaseAddr lives in i2c.c, which is
not in this snapshot.  The spec describes the bus handle as the base
address of a two-wire controller instance and the invalid-bus status as
the result of handing in anything else; the TM4C123 part this course
targets has four I2C controller instances. -/
def i2cVerifyBaseAddr (b : Nat) : Bool :=
  (b == 0x40020000) || (b == 0x40021000) || (b == 0x40022000) || (b == 0x40023000)

/-- Base address of the I2C1 controller, the bus instance the demo code
passes to every transaction. -/
def I2C1_BASE : Nat := 0x40021000

/-- Mock bus primitive: select the slave address and transfer direction.
Records the call and draws the operation status from the oracle. -/
def i2cSetSlaveAddr (i2c_base dev : Nat) (rw : RW) (st : BusState) : I2CStatus × BusState :=
  nextStatus { st with mode := rw, log := st.log ++ [BusOp.setSlaveAddr dev rw] }

/-- EEPROM device reaction to one byte arriving in write mode: a START
flag restarts the address phase; the first byte after a START is the
high address byte, the second completes the 12-bit pointer (the upper
four address bits are ignored by the 4KB part), and every further byte
is data stored at the pointer. -/
def deviceRecv (data flags : Nat) (st : BusState) : BusState :=
  let st := if Nat.testBit flags 1 then { st with phase := 0 } else st
  match st.phase with
  | 0 => { st with hiAddr := data, phase := 1 }
  | 1 => { st with pointer := (st.hiAddr * 256 + data) % 4096, phase := 2 }
  | _ + 2 => { st with mem := fun x => if x = st.pointer then data else st.mem x }

/-- Mock bus primitive: send one byte with the given framing flags.  The
data parameter is a uint8_t in the C API, hence the truncation.  The
byte reaches the device only in write mode. -/
def i2cSendByte (i2c_base data flags : Nat) (st : BusState) : I2CStatus × BusState :=
  let b := data % 256
  let st := { st with log := st.log ++ [BusOp.sendByte b flags] }
  let st := if st.mode = RW.write then deviceRecv b flags st else st
  nextStatus st

/-- Mock bus primitive: framed read of one byte.  The EEPROM returns the
byte at its current memory pointer. -/
def i2cGetByte (i2c_base flags : Nat) (st : BusState) : I2CStatus × Nat × BusState :=
  let st1 := { st with log := st.log ++ [BusOp.getByte flags] }
  let v := st1.mem st1.pointer
  let p := nextStatus st1
  (p.1, v, p.2)

/-- The busy poll `while (I2CMasterBusy(i2c_base)) {};`.  The mock bus
master is never busy between transactions, so the poll spins zero times
and leaves the bus unchanged. -/
def waitWhileMasterBusy (i2c_base : Nat) (st : BusState) : BusState := st

/-- Modelled from the spec: the fixed 7-bit device identifier of the
MCP24LC32AT part (the macro is defined in eeprom.h, which is not in
this snapshot). -/
def MCP24LC32AT_DEV_ID : Nat := 0x50

/-- The do-while loop of eeprom_wait_for_write (eeprom.c lines 29-39):
send the zero-content probe byte with START, RUN and STOP framing, spin
on the busy flag, and repeat while the device has not acknowledged the
address.  Recursion is on the list of acknowledgment responses;
exhausting it without an acknowledgment models the loop never
returning. -/
def eepromAckPoll (i2c_base : Nat) (st : BusState) :
    List Bool → Option (I2CStatus × BusState × List Bool)
  | [] => none
  | ack :: rest =>
    let p := i2cSendByte i2c_base 0x00 (I2C_MCS_START ||| I2C_MCS_RUN ||| I2C_MCS_STOP) st
    let st1 := waitWhileMasterBusy i2c_base p.2
    if ack then some (p.1, st1, rest) else eepromAckPoll i2c_base st1 rest

/-- eeprom_wait_for_write (eeprom.c lines 13-42): validate the bus
handle, address the EEPROM in write mode, then poll with zero-content
probe transactions until the device acknowledges.  The returned status
is that of the last probe send; the status of the address-set call is
overwritten by the first loop iteration. -/
def eeprom_wait_for_write (i2c_base : Nat) (st : BusState) (acks : List Bool) :
    Option (I2CStatus × BusState × List Bool) :=
  if i2cVerifyBaseAddr i2c_base = false then
    some (I2CStatus.invalidBase, st, acks)
  else
    let p := i2cSetSlaveAddr i2c_base MCP24LC32AT_DEV_ID RW.write st
    eepromAckPoll i2c_base p.2 acks

/-- eeprom_byte_write (eeprom.c lines 59-97): wait for bus idle, address
the EEPROM in write mode (returning immediately on a non-ok status),
call eeprom_wait_for_write discarding its status, then send the high
address byte, the low address byte and the data byte, returning
immediately on any non-ok status.  `none` propagates a wait that never
returned. -/
def eeprom_byte_write (i2c_base address data : Nat) (st : BusState) (acks : List Bool) :
    Option (I2CStatus × BusState × List Bool) :=
  let st := waitWhileMasterBusy i2c_base st
  let p1 := i2cSetSlaveAddr i2c_base MCP24LC32AT_DEV_ID RW.write st
  if p1.1 ≠ I2CStatus.ok then some (p1.1, p1.2, acks) else
  match eeprom_wait_for_write i2c_base p1.2 acks with
  | none => none
  | some (_, st2, acks2) =>
    let p2 := i2cSendByte i2c_base (address / 256) (I2C_MCS_START ||| I2C_MCS_RUN) st2
    if p2.1 ≠ I2CStatus.ok then some (p2.1, p2.2, acks2) else
    let p3 := i2cSendByte i2c_base address I2C_MCS_RUN p2.2
    if p3.1 ≠ I2CStatus.ok then some (p3.1, p3.2, acks2) else
    let p4 := i2cSendByte i2c_base data (I2C_MCS_RUN ||| I2C_MCS_STOP) p3.2
    if p4.1 ≠ I2CStatus.ok then some (p4.1, p4.2, acks2) else
    some (p4.1, p4.2, acks2)

/-- eeprom_byte_read (eeprom.c lines 113-158): wait for bus idle, call
eeprom_wait_for_write discarding its status, address the EEPROM in
write mode, send the high and low address bytes, re-address in read
mode, then pull one framed byte.  Any non-ok status of those five
operations is returned immediately; the data component is `none` when
the failure happened before the framed read reached the device. -/
def eeprom_byte_read (i2c_base address : Nat) (st : BusState) (acks : List Bool) :
    Option (I2CStatus × Option Nat × BusState × List Bool) :=
  let st := waitWhileMasterBusy i2c_base st
  match eeprom_wait_for_write i2c_base st acks with
  | none => none
  | some (_, st2, acks2) =>
    let p1 := i2cSetSlaveAddr i2c_base MCP24LC32AT_DEV_ID RW.write st2
    if p1.1 ≠ I2CStatus.ok then some (p1.1, none, p1.2, acks2) else
    let p2 := i2cSendByte i2c_base (address / 256) (I2C_MCS_START ||| I2C_MCS_RUN) p1.2
    if p2.1 ≠ I2CStatus.ok then some (p2.1, none, p2.2, acks2) else
    let p3 := i2cSendByte i2c_base address I2C_MCS_RUN p2.2
    if p3.1 ≠ I2CStatus.ok then some (p3.1, none, p3.2, acks2) else
    let p4 := i2cSetSlaveAddr i2c_base MCP24LC32AT_DEV_ID RW.read p3.2
    if p4.1 ≠ I2CStatus.ok then some (p4.1, none, p4.2, acks2) else
    let p5 := i2cGetByte i2c_base (I2C_MCS_START ||| I2C_MCS_RUN ||| I2C_MCS_STOP) p4.2
    if p5.1 ≠ I2CStatus.ok then some (p5.1, some p5.2.1, p5.2.2, acks2) else
    some (p5.1, some p5.2.1, p5.2.2, acks2)

/-- One observable configuration call made by eeprom_init, recorded in
the GPIO call log. -/
inductive GpioCall where
  | enablePort (port : Nat)
  | digitalEnable (port pin : Nat)
  | altFunc (port pin : Nat)
  | portControl (port pctlM pctl : Nat)
  | openDrain (port pin : Nat)
  | masterInit (base : Nat)
  deriving DecidableEq, Repr

/-- State of the mock GPIO and controller configuration layer: an
oracle giving the success of the n-th configuration call, a call
counter, and the log of calls made. -/
structure GpioState where
  results : Nat → Bool
  callIdx : Nat
  log : List GpioCall

/-- Perform one mock configuration call: record it and draw its result
from the oracle. -/
def gpioCall (c : GpioCall) (g : GpioState) : Bool × GpioState :=
  (g.results g.callIdx, { g with callIdx := g.callIdx + 1, log := g.log ++ [c] })

/-- Mock of gpio_enable_port. -/
def gpio_enable_port (port : Nat) (g : GpioState) : Bool × GpioState :=
  gpioCall (GpioCall.enablePort port) g

/-- Mock of gpio_config_digital_enable. -/
def gpio_config_digital_enable (port pin : Nat) (g : GpioState) : Bool × GpioState :=
  gpioCall (GpioCall.digitalEnable port pin) g

/-- Mock of gpio_config_alternate_function. -/
def gpio_config_alternate_function (port pin : Nat) (g : GpioState) : Bool × GpioState :=
  gpioCall (GpioCall.altFunc port pin) g

/-- Mock of gpio_config_port_control. -/
def gpio_config_port_control (port pctlM pctl : Nat) (g : GpioState) : Bool × GpioState :=
  gpioCall (GpioCall.portControl port pctlM pctl) g

/-- Mock of gpio_config_open_drain. -/
def gpio_config_open_drain (port pin : Nat) (g : GpioState) : Bool × GpioState :=
  gpioCall (GpioCall.openDrain port pin) g

/-- Mock of the bus controller master initialisation primitive called
last by eeprom_init (eeprom.c line 211); it returns a transaction
status that eeprom_init compares against I2C_OK. -/
def i2cMasterInit (base : Nat) (g : GpioState) : I2CStatus × GpioState :=
  let p := gpioCall (GpioCall.masterInit base) g
  (if p.1 then I2CStatus.ok else I2CStatus.error, p.2)

/-- Modelled from the spec: the GPIO port base and pin macros of
eeprom.h, which is not in this snapshot; the spec only fixes that two
GPIO lines of one port serve as the clock and data signals. -/
def EEPROM_GPIO_BASE : Nat := 0x40004000

/-- Modelled from the spec: the clock line pin mask (eeprom.h macro). -/
def EEPROM_I2C_SCL_PIN : Nat := 0x40

/-- Modelled from the spec: the data line pin mask (eeprom.h macro). -/
def EEPROM_I2C_SDA_PIN : Nat := 0x80

/-- Modelled from the spec: clock line port-control mask (eeprom.h macro). -/
def EEPROM_I2C_SCL_PCTL_M : Nat := 0x0F000000

/-- Modelled from the spec: clock line port-control value (eeprom.h macro). -/
def EEPROM_I2C_SCL_PIN_PCTL : Nat := 0x03000000

/-- Modelled from the spec: data line port-control mask (eeprom.h macro). -/
def EEPROM_I2C_SDA_PCTL_M : Nat := 0xF0000000

/-- Modelled from the spec: data line port-control value (eeprom.h macro). -/
def EEPROM_I2C_SDA_PIN_PCTL : Nat := 0x30000000

/-- Modelled from the spec: the controller instance eeprom_init hands
to the master initialisation call; the demo code uses I2C1 for every
transaction. -/
def EEPROM_I2C_BASE : Nat := I2C1_BASE

/-- eeprom_init (eeprom.c lines 163-218): enable the GPIO port,
configure the clock line (digital enable, alternate function, port
control), configure the data line (digital enable, open drain,
alternate function, port control), then initialise the bus controller.
Each step returns false immediately on failure. -/
def eeprom_init (g : GpioState) : Bool × GpioState :=
  let p := gpio_enable_port EEPROM_GPIO_BASE g
  if p.1 = false then (false, p.2) else
  let p := gpio_config_digital_enable EEPROM_GPIO_BASE EEPROM_I2C_SCL_PIN p.2
  if p.1 = false then (false, p.2) else
  let p := gpio_config_alternate_function EEPROM_GPIO_BASE EEPROM_I2C_SCL_PIN p.2
  if p.1 = false then (false, p.2) else
  let p := gpio_config_port_control EEPROM_GPIO_BASE EEPROM_I2C_SCL_PCTL_M EEPROM_I2C_SCL_PIN_PCTL p.2
  if p.1 = false then (false, p.2) else
  let p := gpio_config_digital_enable EEPROM_GPIO_BASE EEPROM_I2C_SDA_PIN p.2
  if p.1 = false then (false, p.2) else
  let p := gpio_config_open_drain EEPROM_GPIO_BASE EEPROM_I2C_SDA_PIN p.2
  if p.1 = false then (false, p.2) else
  let p := gpio_config_alternate_function EEPROM_GPIO_BASE EEPROM_I2C_SDA_PIN p.2
  if p.1 = false then (false, p.2) else
  let p := gpio_config_port_control EEPROM_GPIO_BASE EEPROM_I2C_SDA_PCTL_M EEPROM_I2C_SDA_PIN_PCTL p.2
  if p.1 = false then (false, p.2) else
  let q := i2cMasterInit EEPROM_I2C_BASE p.2
  if q.1 ≠ I2CStatus.ok then (false, q.2) else
  (true, q.2)

/-- The nine configuration calls of eeprom_init in source order. -/
def eepromInitCalls : List GpioCall :=
  [GpioCall.enablePort EEPROM_GPIO_BASE,
   GpioCall.digitalEnable EEPROM_GPIO_BASE EEPROM_I2C_SCL_PIN,
   GpioCall.altFunc EEPROM_GPIO_BASE EEPROM_I2C_SCL_PIN,
   GpioCall.portControl EEPROM_GPIO_BASE EEPROM_I2C_SCL_PCTL_M EEPROM_I2C_SCL_PIN_PCTL,
   GpioCall.digitalEnable EEPROM_GPIO_BASE EEPROM_I2C_SDA_PIN,
   GpioCall.openDrain EEPROM_GPIO_BASE EEPROM_I2C_SDA_PIN,
   GpioCall.altFunc EEPROM_GPIO_BASE EEPROM_I2C_SDA_PIN,
   GpioCall.portControl EEPROM_GPIO_BASE EEPROM_I2C_SDA_PCTL_M EEPROM_I2C_SDA_PIN_PCTL,
   GpioCall.masterInit EEPROM_I2C_BASE]

/-- write_to_eeprom (eeprom.c lines 277-282): write the bytes of a
string one by one at consecutive addresses on I2C1, discarding the
status of each byte write.  The C loop runs over strlen characters; the
string is modelled as its list of byte values. -/
def write_to_eeprom : List Nat → Nat → BusState → List Bool → Option (BusState × List Bool)
  | [], _, st, acks => some (st, acks)
  | c :: cs, address, st, acks =>
    match eeprom_byte_write I2C1_BASE address c st acks with
    | none => none
    | some (_, st1, acks1) => write_to_eeprom cs (address + 1) st1 acks1

/-- read_from_eprom (eeprom.c lines 284-287): read one byte from the
given address on I2C1. -/
def read_from_eprom (address : Nat) (st : BusState) (acks : List Bool) :
    Option (I2CStatus × Option Nat × BusState × List Bool) :=
  eeprom_byte_read I2C1_BASE address st acks

/-- The sequential read-back loop of eeprom_init_write_read (eeprom.c
lines 239-243): read n consecutive bytes starting at the given address,
collecting the values.  A read whose data never materialised stops the
loop with `none`. -/
def readBackLoop : Nat → Nat → BusState → List Bool → Option (List Nat × BusState × List Bool)
  | _, 0, st, acks => some ([], st, acks)
  | address, n + 1, st, acks =>
    match read_from_eprom address st acks with
    | some (_, some v, st1, acks1) =>
      match readBackLoop (address + 1) n st1 acks1 with
      | some (vs, st2, acks2) => some (v :: vs, st2, acks2)
      | none => none
    | _ => none

/-- State after an i2cSetSlaveAddr call drawn from state st. -/
def setAddrState (st : BusState) (dev : Nat) (rw : RW) : BusState :=
  { st with mode := rw, opIdx := st.opIdx + 1,
            log := st.log ++ [BusOp.setSlaveAddr dev rw] }

/-- State after n zero-content probe sends from state st (write mode). -/
def probedState (st : BusState) (n : Nat) : BusState :=
  { st with hiAddr := 0, phase := 1, opIdx := st.opIdx + n,
            log := st.log ++
              List.replicate n (BusOp.sendByte 0 (I2C_MCS_START ||| I2C_MCS_RUN ||| I2C_MCS_STOP)) }

/-- State after a completed eeprom_wait_for_write from state st whose
poll saw k refusals before the first acknowledgment. -/
def waitedState (st : BusState) (k : Nat) : BusState :=
  probedState (setAddrState st MCP24LC32AT_DEV_ID RW.write) (k + 1)

/-- State after sending the high address byte from state st (write mode). -/
def hiState (st : BusState) (address : Nat) : BusState :=
  { st with hiAddr := address / 256 % 256, phase := 1, opIdx := st.opIdx + 1,
            log := st.log ++ [BusOp.sendByte (address / 256 % 256) (I2C_MCS_START ||| I2C_MCS_RUN)] }

/-- State after sending the low address byte from state st (write mode,
phase 1). -/
def loState (st : BusState) (address : Nat) : BusState :=
  { st with pointer := (st.hiAddr * 256 + address % 256) % 4096, phase := 2,
            opIdx := st.opIdx + 1,
            log := st.log ++ [BusOp.sendByte (address % 256) I2C_MCS_RUN] }

/-- State after sending the data byte from state st (write mode,
phase 2). -/
def dataState (st : BusState) (data : Nat) : BusState :=
  { st with mem := fun x => if x = st.pointer then data % 256 else st.mem x,
            opIdx := st.opIdx + 1,
            log := st.log ++ [BusOp.sendByte (data % 256) (I2C_MCS_RUN ||| I2C_MCS_STOP)] }

/-- State after the framed read from state st. -/
def gotByteState (st : BusState) : BusState :=
  { st with opIdx := st.opIdx + 1,
            log := st.log ++ [BusOp.getByte (I2C_MCS_START ||| I2C_MCS_RUN ||| I2C_MCS_STOP)] }

/-- Log entry of addressing the EEPROM in write mode. -/
def opSetW : BusOp := BusOp.setSlaveAddr MCP24LC32AT_DEV_ID RW.write

/-- Log entry of addressing the EEPROM in read mode. -/
def opSetR : BusOp := BusOp.setSlaveAddr MCP24LC32AT_DEV_ID RW.read

/-- Log entry of the zero-content probe send of the write-complete poll. -/
def opProbe : BusOp := BusOp.sendByte 0 (I2C_MCS_START ||| I2C_MCS_RUN ||| I2C_MCS_STOP)

/-- Log entry of sending the high address byte. -/
def opHi (address : Nat) : BusOp :=
  BusOp.sendByte (address / 256 % 256) (I2C_MCS_START ||| I2C_MCS_RUN)

/-- Log entry of sending the low address byte. -/
def opLo (address : Nat) : BusOp := BusOp.sendByte (address % 256) I2C_MCS_RUN

/-- Log entry of sending the data byte. -/
def opData (data : Nat) : BusOp := BusOp.sendByte (data % 256) (I2C_MCS_RUN ||| I2C_MCS_STOP)

/-- Log entry of the framed read. -/
def opGet : BusOp := BusOp.getByte (I2C_MCS_START ||| I2C_MCS_RUN ||| I2C_MCS_STOP)

/-- Status component of an eeprom_byte_write result. -/
def wrStatus (r : Option (I2CStatus × BusState × List Bool)) : Option I2CStatus :=
  r.map fun x => x.1

/-- Call log of the bus after an eeprom_byte_write result. -/
def wrLog (r : Option (I2CStatus × BusState × List Bool)) : Option (List BusOp) :=
  r.map fun x => x.2.1.log

/-- Status component of an eeprom_byte_read result. -/
def rdStatus (r : Option (I2CStatus × Option Nat × BusState × List Bool)) : Option I2CStatus :=
  r.map fun x => x.1

/-- Data component of an eeprom_byte_read result. -/
def rdData (r : Option (I2CStatus × Option Nat × BusState × List Bool)) : Option (Option Nat) :=
  r.map fun x => x.2.1

/-- Call log of the bus after an eeprom_byte_read result. -/
def rdLog (r : Option (I2CStatus × Option Nat × BusState × List Bool)) : Option (List BusOp) :=
  r.map fun x => x.2.2.1.log

/-- A quiescent mock bus on which every operation succeeds: blank
memory, no address latched, write mode selected, every status ok. -/
def okBus : BusState :=
  { mem := fun _ => 0, hiAddr := 0, phase := 0, pointer := 0, mode := RW.write,
    statuses := fun _ => I2CStatus.ok, opIdx := 0, log := [] }

/-- A mock bus whose third bus operation (index 2, the probe send of
the write-complete poll inside eeprom_byte_write) reports a generic
controller error while every other operation succeeds. -/
def probeFaultBus : BusState :=
  { mem := fun _ => 0, hiAddr := 0, phase := 0, pointer := 0, mode := RW.write,
    statuses := fun n => if n = 2 then I2CStatus.error else I2CStatus.ok,
    opIdx := 0, log := [] }

/-- A mock bus whose first bus operation reports slave-no-acknowledge
while every other operation succeeds. -/
def nackBus : BusState :=
  { mem := fun _ => 0, hiAddr := 0, phase := 0, pointer := 0, mode := RW.write,
    statuses := fun n => if n = 0 then I2CStatus.adrAckFail else I2CStatus.ok,
    opIdx := 0, log := [] }

/-- A mock GPIO layer on which every configuration call succeeds. -/
def okGpio : GpioState :=
  { results := fun _ => true, callIdx := 0, log := [] }

lemma setSlave_eq (b dev : Nat) (rw : RW) (st : BusState) :
    i2cSetSlaveAddr b dev rw st = (st.statuses st.opIdx, setAddrState st dev rw) := rfl

lemma get_eq (b : Nat) (st : BusState) :
    i2cGetByte b (I2C_MCS_START ||| I2C_MCS_RUN ||| I2C_MCS_STOP) st =
      (st.statuses st.opIdx, st.mem st.pointer, gotByteState st) := rfl

lemma testBit_start : Nat.testBit I2C_MCS_START 1 = true := by decide

lemma testBit_run : Nat.testBit I2C_MCS_RUN 1 = false := by decide

lemma testBit_stop : Nat.testBit I2C_MCS_STOP 1 = false := by decide

lemma probe_eq (b : Nat) (st : BusState) (hm : st.mode = RW.write) :
    i2cSendByte b 0 (I2C_MCS_START ||| I2C_MCS_RUN ||| I2C_MCS_STOP) st =
      (st.statuses st.opIdx, probedState st 1) := by
  simp [i2cSendByte, deviceRecv, probedState, nextStatus, hm, testBit_start, testBit_run,
    testBit_stop]

lemma hiSend_eq (b a : Nat) (st : BusState) (hm : st.mode = RW.write) :
    i2cSendByte b (a / 256) (I2C_MCS_START ||| I2C_MCS_RUN) st =
      (st.statuses st.opIdx, hiState st a) := by
  simp [i2cSendByte, deviceRecv, hiState, nextStatus, hm, testBit_start, testBit_run]

lemma loSend_eq (b a : Nat) (st : BusState) (hm : st.mode = RW.write) (hp : st.phase = 1) :
    i2cSendByte b a I2C_MCS_RUN st = (st.statuses st.opIdx, loState st a) := by
  simp [i2cSendByte, deviceRecv, loState, nextStatus, hm, hp, testBit_run]

lemma dataSend_eq (b d : Nat) (st : BusState) (hm : st.mode = RW.write) (hp : st.phase = 2) :
    i2cSendByte b d (I2C_MCS_RUN ||| I2C_MCS_STOP) st =
      (st.statuses st.opIdx, dataState st d) := by
  simp [i2cSendByte, deviceRecv, dataState, nextStatus, hm, hp, testBit_run, testBit_stop]

lemma probedState_add (st : BusState) (m n : Nat) :
    probedState (probedState st m) n = probedState st (m + n) := by
  simp only [probedState]
  rw [List.append_assoc, ← List.replicate_add, Nat.add_assoc]

lemma probedState_mode (st : BusState) (n : Nat) : (probedState st n).mode = st.mode := rfl

lemma pollSpec (b : Nat) (k : Nat) (rest : List Bool) :
    ∀ st : BusState, st.mode = RW.write →
    eepromAckPoll b st (List.replicate k false ++ true :: rest) =
      some (st.statuses (st.opIdx + k), probedState st (k + 1), rest) := by
  induction k with
  | zero =>
    intro st hm
    simp [eepromAckPoll, probe_eq b st hm, waitWhileMasterBusy]
  | succ k ih =>
    intro st hm
    have hm1 : (probedState st 1).mode = RW.write := by rw [probedState_mode, hm]
    have hrec := ih (probedState st 1) hm1
    rw [probedState_add] at hrec
    simp only [List.replicate_succ, List.cons_append, List.append_eq, eepromAckPoll,
      probe_eq b st hm, waitWhileMasterBusy, if_false, Bool.false_eq_true] at hrec ⊢
    rw [hrec]
    have e1 : st.opIdx + 1 + k = st.opIdx + (k + 1) := by omega
    have e2 : 1 + (k + 1) = k + 1 + 1 := by omega
    simp [probedState, e1, e2]

lemma setAddrState_mode (st : BusState) (dev : Nat) (rw : RW) :
    (setAddrState st dev rw).mode = rw := rfl

lemma waitSpec (b : Nat) (st : BusState) (hb : i2cVerifyBaseAddr b = true) (k : Nat)
    (rest : List Bool) :
    eeprom_wait_for_write b st (List.replicate k false ++ true :: rest) =
      some (st.statuses (st.opIdx + 1 + k), waitedState st k, rest) := by
  unfold eeprom_wait_for_write
  rw [hb]
  simp only [Bool.true_eq_false, if_false, setSlave_eq]
  rw [pollSpec b k rest (setAddrState st MCP24LC32AT_DEV_ID RW.write) rfl]
  rfl

lemma pollNone (b : Nat) :
    ∀ acks : List Bool, (∀ x ∈ acks, x = false) → ∀ st : BusState,
      eepromAckPoll b st acks = none := by
  intro acks
  induction acks with
  | nil => intro _ st; rfl
  | cons a rest ih =>
    intro h st
    have ha : a = false := h a (by simp)
    subst ha
    simp only [eepromAckPoll, waitWhileMasterBusy, if_false, Bool.false_eq_true]
    exact ih (fun x hx => h x (by simp [hx])) _

lemma waitNone (b : Nat) (st : BusState) (acks : List Bool)
    (hb : i2cVerifyBaseAddr b = true) (h : ∀ x ∈ acks, x = false) :
    eeprom_wait_for_write b st acks = none := by
  unfold eeprom_wait_for_write
  rw [hb]
  simp only [Bool.true_eq_false, if_false, setSlave_eq]
  exact pollNone b acks h _

lemma waitInvalid (b : Nat) (st : BusState) (acks : List Bool)
    (hb : i2cVerifyBaseAddr b = false) :
    eeprom_wait_for_write b st acks = some (I2CStatus.invalidBase, st, acks) := by
  simp [eeprom_wait_for_write, hb]

lemma waitedState_mode (st : BusState) (k : Nat) : (waitedState st k).mode = RW.write := rfl

lemma waitedState_phase (st : BusState) (k : Nat) : (waitedState st k).phase = 1 := rfl

lemma hiState_mode (st : BusState) (a : Nat) : (hiState st a).mode = st.mode := rfl

lemma hiState_phase (st : BusState) (a : Nat) : (hiState st a).phase = 1 := rfl

lemma loState_mode (st : BusState) (a : Nat) : (loState st a).mode = st.mode := rfl

lemma loState_phase (st : BusState) (a : Nat) : (loState st a).phase = 2 := rfl

lemma bw_main (b a d : Nat) (st : BusState) (k : Nat) (rest : List Bool)
    (hb : i2cVerifyBaseAddr b = true) :
    eeprom_byte_write b a d st (List.replicate k false ++ true :: rest) =
      if st.statuses st.opIdx ≠ I2CStatus.ok then
        some (st.statuses st.opIdx, setAddrState st MCP24LC32AT_DEV_ID RW.write,
          List.replicate k false ++ true :: rest)
      else
        let W := waitedState (setAddrState st MCP24LC32AT_DEV_ID RW.write) k
        if W.statuses W.opIdx ≠ I2CStatus.ok then
          some (W.statuses W.opIdx, hiState W a, rest)
        else
          let H := hiState W a
          if H.statuses H.opIdx ≠ I2CStatus.ok then
            some (H.statuses H.opIdx, loState H a, rest)
          else
            let L := loState H a
            some (L.statuses L.opIdx, dataState L d, rest) := by
  unfold eeprom_byte_write
  simp only [waitWhileMasterBusy, setSlave_eq]
  by_cases h0 : st.statuses st.opIdx = I2CStatus.ok
  · rw [waitSpec b (setAddrState st MCP24LC32AT_DEV_ID RW.write) hb k rest]
    simp only [h0, ne_eq, not_true_eq_false, if_false, ite_false]
    rw [hiSend_eq b a _ (waitedState_mode _ _)]
    rw [loSend_eq b a _ (by rw [hiState_mode, waitedState_mode]) (hiState_phase _ _)]
    rw [dataSend_eq b d _ (by rw [loState_mode, hiState_mode, waitedState_mode])
      (loState_phase _ _)]
    simp
  · simp [h0]

lemma br_main (b a : Nat) (st : BusState) (k : Nat) (rest : List Bool)
    (hb : i2cVerifyBaseAddr b = true) :
    eeprom_byte_read b a st (List.replicate k false ++ true :: rest) =
      (let W := waitedState st k
       let A := setAddrState W MCP24LC32AT_DEV_ID RW.write
       if W.statuses W.opIdx ≠ I2CStatus.ok then
         some (W.statuses W.opIdx, none, A, rest)
       else
         if A.statuses A.opIdx ≠ I2CStatus.ok then
           some (A.statuses A.opIdx, none, hiState A a, rest)
         else
           let H := hiState A a
           if H.statuses H.opIdx ≠ I2CStatus.ok then
             some (H.statuses H.opIdx, none, loState H a, rest)
           else
             let L := loState H a
             if L.statuses L.opIdx ≠ I2CStatus.ok then
               some (L.statuses L.opIdx, none, setAddrState L MCP24LC32AT_DEV_ID RW.read, rest)
             else
               let R := setAddrState L MCP24LC32AT_DEV_ID RW.read
               some (R.statuses R.opIdx, some (R.mem R.pointer), gotByteState R, rest)) := by
  unfold eeprom_byte_read
  simp only [waitWhileMasterBusy]
  rw [waitSpec b st hb k rest]
  simp only [setSlave_eq]
  rw [hiSend_eq b a _ (setAddrState_mode _ _ _)]
  rw [loSend_eq b a _ (by rw [hiState_mode, setAddrState_mode]) (hiState_phase _ _)]
  rw [get_eq]
  simp

lemma bw_inv (b a d : Nat) (st : BusState) (acks : List Bool)
    (hb : i2cVerifyBaseAddr b = false) :
    eeprom_byte_write b a d st acks =
      if st.statuses st.opIdx ≠ I2CStatus.ok then
        some (st.statuses st.opIdx, setAddrState st MCP24LC32AT_DEV_ID RW.write, acks)
      else
        let A := setAddrState st MCP24LC32AT_DEV_ID RW.write
        if A.statuses A.opIdx ≠ I2CStatus.ok then
          some (A.statuses A.opIdx, hiState A a, acks)
        else
          let H := hiState A a
          if H.statuses H.opIdx ≠ I2CStatus.ok then
            some (H.statuses H.opIdx, loState H a, acks)
          else
            let L := loState H a
            some (L.statuses L.opIdx, dataState L d, acks) := by
  unfold eeprom_byte_write
  simp only [waitWhileMasterBusy, setSlave_eq]
  rw [waitInvalid b _ acks hb]
  by_cases h0 : st.statuses st.opIdx = I2CStatus.ok
  · simp only [h0, ne_eq, not_true_eq_false, if_false, ite_false]
    rw [hiSend_eq b a _ (setAddrState_mode _ _ _)]
    rw [loSend_eq b a _ (by rw [hiState_mode, setAddrState_mode]) (hiState_phase _ _)]
    rw [dataSend_eq b d _ (by rw [loState_mode, hiState_mode, setAddrState_mode])
      (loState_phase _ _)]
    simp
  · simp [h0]

lemma br_inv (b a : Nat) (st : BusState) (acks : List Bool)
    (hb : i2cVerifyBaseAddr b = false) :
    eeprom_byte_read b a st acks =
      (let A := setAddrState st MCP24LC32AT_DEV_ID RW.write
       if st.statuses st.opIdx ≠ I2CStatus.ok then
         some (st.statuses st.opIdx, none, A, acks)
       else
         if A.statuses A.opIdx ≠ I2CStatus.ok then
           some (A.statuses A.opIdx, none, hiState A a, acks)
         else
           let H := hiState A a
           if H.statuses H.opIdx ≠ I2CStatus.ok then
             some (H.statuses H.opIdx, none, loState H a, acks)
           else
             let L := loState H a
             if L.statuses L.opIdx ≠ I2CStatus.ok then
               some (L.statuses L.opIdx, none, setAddrState L MCP24LC32AT_DEV_ID RW.read, acks)
             else
               let R := setAddrState L MCP24LC32AT_DEV_ID RW.read
               some (R.statuses R.opIdx, some (R.mem R.pointer), gotByteState R, acks)) := by
  unfold eeprom_byte_read
  simp only [waitWhileMasterBusy]
  rw [waitInvalid b st acks hb]
  simp only [setSlave_eq]
  rw [hiSend_eq b a _ (setAddrState_mode _ _ _)]
  rw [loSend_eq b a _ (by rw [hiState_mode, setAddrState_mode]) (hiState_phase _ _)]
  rw [get_eq]
  simp

lemma bw_ok (b a d : Nat) (st : BusState) (k : Nat) (rest : List Bool)
    (hb : i2cVerifyBaseAddr b = true) (hok : ∀ n, st.statuses n = I2CStatus.ok) :
    eeprom_byte_write b a d st (List.replicate k false ++ true :: rest) =
      some (I2CStatus.ok,
        dataState (loState (hiState (waitedState (setAddrState st MCP24LC32AT_DEV_ID RW.write) k)
          a) a) d, rest) := by
  rw [bw_main b a d st k rest hb]
  simp [hok, waitedState, probedState, setAddrState, hiState, loState]

lemma br_ok (b a : Nat) (st : BusState) (k : Nat) (rest : List Bool)
    (hb : i2cVerifyBaseAddr b = true) (hok : ∀ n, st.statuses n = I2CStatus.ok) :
    eeprom_byte_read b a st (List.replicate k false ++ true :: rest) =
      (let R := setAddrState (loState (hiState (setAddrState (waitedState st k)
          MCP24LC32AT_DEV_ID RW.write) a) a) MCP24LC32AT_DEV_ID RW.read
       some (I2CStatus.ok, some (R.mem R.pointer), gotByteState R, rest)) := by
  rw [br_main b a st k rest hb]
  simp [hok, waitedState, probedState, setAddrState, hiState, loState]

lemma pointer_arith (a : Nat) (ha : a < 4096) :
    (a / 256 % 256 * 256 + a % 256) % 4096 = a := by omega

lemma bw_write_mem (a d : Nat) (st : BusState) (rest : List Bool)
    (hok : ∀ n, st.statuses n = I2CStatus.ok) (ha : a < 4096) :
    ∃ st1, eeprom_byte_write I2C1_BASE a d st (true :: rest) = some (I2CStatus.ok, st1, rest) ∧
      st1.mem = (fun x => if x = a then d % 256 else st.mem x) ∧
      st1.statuses = st.statuses := by
  have hb : i2cVerifyBaseAddr I2C1_BASE = true := by decide
  have h := bw_ok I2C1_BASE a d st 0 rest hb hok
  rw [show List.replicate 0 false ++ true :: rest = true :: rest by simp] at h
  refine ⟨_, h, ?_, rfl⟩
  funext x
  simp [dataState, loState, hiState, waitedState, probedState, setAddrState,
    pointer_arith a ha]

lemma br_read_mem (a : Nat) (st : BusState) (rest : List Bool)
    (hok : ∀ n, st.statuses n = I2CStatus.ok) (ha : a < 4096) :
    ∃ st1, eeprom_byte_read I2C1_BASE a st (true :: rest) =
        some (I2CStatus.ok, some (st.mem a), st1, rest) ∧
      st1.mem = st.mem ∧ st1.statuses = st.statuses := by
  have hb : i2cVerifyBaseAddr I2C1_BASE = true := by decide
  have h := br_ok I2C1_BASE a st 0 rest hb hok
  simp only [setAddrState, loState, hiState, waitedState, probedState, gotByteState,
    List.replicate_zero, List.nil_append, Nat.zero_add, List.replicate_one] at h
  rw [pointer_arith a ha] at h
  exact ⟨_, h, rfl, rfl⟩

lemma write_seq_mem (s : List Nat) :
    ∀ (a : Nat) (st : BusState) (rest : List Bool),
      (∀ n, st.statuses n = I2CStatus.ok) → a + s.length ≤ 4096 →
      ∃ st1, write_to_eeprom s a st (List.replicate s.length true ++ rest) = some (st1, rest) ∧
        (∀ x, st1.mem x =
          if a ≤ x ∧ x < a + s.length then s.getD (x - a) 0 % 256 else st.mem x) ∧
        st1.statuses = st.statuses := by
  induction s with
  | nil =>
    intro a st rest hok hlen
    refine ⟨st, rfl, ?_, rfl⟩
    intro x
    have hx : ¬(a ≤ x ∧ x < a) := by omega
    simp [hx]
  | cons c cs ih =>
    intro a st rest hok hlen
    have ha : a < 4096 := by
      simp only [List.length_cons] at hlen
      omega
    obtain ⟨st1, h1, hmem1, hstat1⟩ :=
      bw_write_mem a c st (List.replicate cs.length true ++ rest) hok ha
    have hok1 : ∀ n, st1.statuses n = I2CStatus.ok := fun n => by rw [hstat1]; exact hok n
    have hlen1 : a + 1 + cs.length ≤ 4096 := by
      simp only [List.length_cons] at hlen
      omega
    obtain ⟨st2, h2, hmem2, hstat2⟩ := ih (a + 1) st1 rest hok1 hlen1
    refine ⟨st2, ?_, ?_, hstat2.trans hstat1⟩
    · simp only [List.length_cons, List.replicate_succ, List.cons_append, write_to_eeprom]
      rw [h1]
      exact h2
    · intro x
      rw [hmem2 x, hmem1]
      simp only [List.length_cons]
      by_cases h1x : a + 1 ≤ x ∧ x < a + 1 + cs.length
      · have hx : a ≤ x ∧ x < a + (cs.length + 1) := by omega
        have hs : x - a = (x - (a + 1)) + 1 := by omega
        simp only [if_pos h1x, if_pos hx, hs, List.getD_cons_succ]
      · by_cases hxa : x = a
        · subst hxa
          have hx : x ≤ x ∧ x < x + (cs.length + 1) := by omega
          simp [h1x, hx]
        · have hx : ¬(a ≤ x ∧ x < a + (cs.length + 1)) := by omega
          simp [h1x, hxa, hx]

lemma read_seq_vals (L : List Nat) :
    ∀ (a : Nat) (st : BusState) (rest : List Bool),
      (∀ n, st.statuses n = I2CStatus.ok) → a + L.length ≤ 4096 →
      (∀ i, i < L.length → st.mem (a + i) = L.getD i 0) →
      ∃ st1, readBackLoop a L.length st (List.replicate L.length true ++ rest) =
        some (L, st1, rest) := by
  induction L with
  | nil => intro a st rest hok hlen hmem; exact ⟨st, rfl⟩
  | cons v vs ih =>
    intro a st rest hok hlen hmem
    have ha : a < 4096 := by
      simp only [List.length_cons] at hlen
      omega
    obtain ⟨st1, h1, hm1, hs1⟩ :=
      br_read_mem a st (List.replicate vs.length true ++ rest) hok ha
    have hv : st.mem a = v := by
      have h0 := hmem 0 (by simp)
      simpa using h0
    have hok1 : ∀ n, st1.statuses n = I2CStatus.ok := fun n => by rw [hs1]; exact hok n
    have hlen1 : a + 1 + vs.length ≤ 4096 := by
      simp only [List.length_cons] at hlen
      omega
    have hmem1 : ∀ i, i < vs.length → st1.mem (a + 1 + i) = vs.getD i 0 := by
      intro i hi
      rw [hm1]
      have h0 := hmem (i + 1) (by simp only [List.length_cons]; omega)
      rw [show a + (i + 1) = a + 1 + i by omega] at h0
      simpa using h0
    obtain ⟨st2, h2⟩ := ih (a + 1) st1 rest hok1 hlen1 hmem1
    refine ⟨st2, ?_⟩
    simp only [List.length_cons, List.replicate_succ, List.cons_append, readBackLoop,
      read_from_eprom]
    rw [h1]
    simp only []
    rw [h2, hv]

/-- Claim C7: eeprom_init returns false as soon as any configuration
step fails, invoking none of the subsequent configuration steps, and
returns true exactly when every configuration step succeeds; steps
already performed are visible in the call log and are not rolled
back. -/
theorem c7_init_short_circuit (g : GpioState) :
    ((∀ i, i < 9 → g.results (g.callIdx + i) = true) →
      (eeprom_init g).1 = true ∧ (eeprom_init g).2.log = g.log ++ eepromInitCalls) ∧
    (∀ m, m < 9 → (∀ i, i < m → g.results (g.callIdx + i) = true) →
      g.results (g.callIdx + m) = false →
      (eeprom_init g).1 = false ∧
        (eeprom_init g).2.log = g.log ++ eepromInitCalls.take (m + 1)) := by
  constructor
  · intro h
    have e0 : g.results g.callIdx = true := by simpa using h 0 (by omega)
    have e1 := h 1 (by omega)
    have e2 := h 2 (by omega)
    have e3 := h 3 (by omega)
    have e4 := h 4 (by omega)
    have e5 := h 5 (by omega)
    have e6 := h 6 (by omega)
    have e7 := h 7 (by omega)
    have e8 := h 8 (by omega)
    constructor <;>
      simp [eeprom_init, gpio_enable_port, gpio_config_digital_enable,
        gpio_config_alternate_function, gpio_config_port_control, gpio_config_open_drain,
        i2cMasterInit, gpioCall, eepromInitCalls, e0, e1, e2, e3, e4, e5, e6, e7, e8]
  · intro m hm hpre hfail
    have chain2 : g.callIdx + 1 + 1 = g.callIdx + 2 := by omega
    have chain3 : g.callIdx + 1 + 1 + 1 = g.callIdx + 3 := by omega
    have chain4 : g.callIdx + 1 + 1 + 1 + 1 = g.callIdx + 4 := by omega
    have chain5 : g.callIdx + 1 + 1 + 1 + 1 + 1 = g.callIdx + 5 := by omega
    have chain6 : g.callIdx + 1 + 1 + 1 + 1 + 1 + 1 = g.callIdx + 6 := by omega
    have chain7 : g.callIdx + 1 + 1 + 1 + 1 + 1 + 1 + 1 = g.callIdx + 7 := by omega
    have chain8 : g.callIdx + 1 + 1 + 1 + 1 + 1 + 1 + 1 + 1 = g.callIdx + 8 := by omega
    interval_cases m
    · simp_all [eeprom_init, gpio_enable_port, gpio_config_digital_enable,
        gpio_config_alternate_function, gpio_config_port_control, gpio_config_open_drain,
        i2cMasterInit, gpioCall, eepromInitCalls]
    · have e0 : g.results g.callIdx = true := by simpa using hpre 0 (by omega)
      simp_all [eeprom_init, gpio_enable_port, gpio_config_digital_enable,
        gpio_config_alternate_function, gpio_config_port_control, gpio_config_open_drain,
        i2cMasterInit, gpioCall, eepromInitCalls]
    · have e0 : g.results g.callIdx = true := by simpa using hpre 0 (by omega)
      have f2 : g.results (g.callIdx + 1 + 1) = false := by rw [chain2]; exact hfail
      simp_all [eeprom_init, gpio_enable_port, gpio_config_digital_enable,
        gpio_config_alternate_function, gpio_config_port_control, gpio_config_open_drain,
        i2cMasterInit, gpioCall, eepromInitCalls]
    · have e0 : g.results g.callIdx = true := by simpa using hpre 0 (by omega)
      have e2 : g.results (g.callIdx + 1 + 1) = true := by rw [chain2]; exact hpre 2 (by omega)
      have f3 : g.results (g.callIdx + 1 + 1 + 1) = false := by rw [chain3]; exact hfail
      simp_all [eeprom_init, gpio_enable_port, gpio_config_digital_enable,
        gpio_config_alternate_function, gpio_config_port_control, gpio_config_open_drain,
        i2cMasterInit, gpioCall, eepromInitCalls]
    · have e0 : g.results g.callIdx = true := by simpa using hpre 0 (by omega)
      have e2 : g.results (g.callIdx + 1 + 1) = true := by rw [chain2]; exact hpre 2 (by omega)
      have e3 : g.results (g.callIdx + 1 + 1 + 1) = true := by rw [chain3]; exact hpre 3 (by omega)
      have f4 : g.results (g.callIdx + 1 + 1 + 1 + 1) = false := by rw [chain4]; exact hfail
      simp_all [eeprom_init, gpio_enable_port, gpio_config_digital_enable,
        gpio_config_alternate_function, gpio_config_port_control, gpio_config_open_drain,
        i2cMasterInit, gpioCall, eepromInitCalls]
    · have e0 : g.results g.callIdx = true := by simpa using hpre 0 (by omega)
      have e2 : g.results (g.callIdx + 1 + 1) = true := by rw [chain2]; exact hpre 2 (by omega)
      have e3 : g.results (g.callIdx + 1 + 1 + 1) = true := by rw [chain3]; exact hpre 3 (by omega)
      have e4 : g.results (g.callIdx + 1 + 1 + 1 + 1) = true := by
        rw [chain4]; exact hpre 4 (by omega)
      have f5 : g.results (g.callIdx + 1 + 1 + 1 + 1 + 1) = false := by rw [chain5]; exact hfail
      simp_all [eeprom_init, gpio_enable_port, gpio_config_digital_enable,
        gpio_config_alternate_function, gpio_config_port_control, gpio_config_open_drain,
        i2cMasterInit, gpioCall, eepromInitCalls]
    · have e0 : g.results g.callIdx = true := by simpa using hpre 0 (by omega)
      have e2 : g.results (g.callIdx + 1 + 1) = true := by rw [chain2]; exact hpre 2 (by omega)
      have e3 : g.results (g.callIdx + 1 + 1 + 1) = true := by rw [chain3]; exact hpre 3 (by omega)
      have e4 : g.results (g.callIdx + 1 + 1 + 1 + 1) = true := by
        rw [chain4]; exact hpre 4 (by omega)
      have e5 : g.results (g.callIdx + 1 + 1 + 1 + 1 + 1) = true := by
        rw [chain5]; exact hpre 5 (by omega)
      have f6 : g.results (g.callIdx + 1 + 1 + 1 + 1 + 1 + 1) = false := by
        rw [chain6]; exact hfail
      simp_all [eeprom_init, gpio_enable_port, gpio_config_digital_enable,
        gpio_config_alternate_function, gpio_config_port_control, gpio_config_open_drain,
        i2cMasterInit, gpioCall, eepromInitCalls]
    · have e0 : g.results g.callIdx = true := by simpa using hpre 0 (by omega)
      have e2 : g.results (g.callIdx + 1 + 1) = true := by rw [chain2]; exact hpre 2 (by omega)
      have e3 : g.results (g.callIdx + 1 + 1 + 1) = true := by rw [chain3]; exact hpre 3 (by omega)
      have e4 : g.results (g.callIdx + 1 + 1 + 1 + 1) = true := by
        rw [chain4]; exact hpre 4 (by omega)
      have e5 : g.results (g.callIdx + 1 + 1 + 1 + 1 + 1) = true := by
        rw [chain5]; exact hpre 5 (by omega)
      have e6 : g.results (g.callIdx + 1 + 1 + 1 + 1 + 1 + 1) = true := by
        rw [chain6]; exact hpre 6 (by omega)
      have f7 : g.results (g.callIdx + 1 + 1 + 1 + 1 + 1 + 1 + 1) = false := by
        rw [chain7]; exact hfail
      simp_all [eeprom_init, gpio_enable_port, gpio_config_digital_enable,
        gpio_config_alternate_function, gpio_config_port_control, gpio_config_open_drain,
        i2cMasterInit, gpioCall, eepromInitCalls]
    · have e0 : g.results g.callIdx = true := by simpa using hpre 0 (by omega)
      have e2 : g.results (g.callIdx + 1 + 1) = true := by rw [chain2]; exact hpre 2 (by omega)
      have e3 : g.results (g.callIdx + 1 + 1 + 1) = true := by rw [chain3]; exact hpre 3 (by omega)
      have e4 : g.results (g.callIdx + 1 + 1 + 1 + 1) = true := by
        rw [chain4]; exact hpre 4 (by omega)
      have e5 : g.results (g.callIdx + 1 + 1 + 1 + 1 + 1) = true := by
        rw [chain5]; exact hpre 5 (by omega)
      have e6 : g.results (g.callIdx + 1 + 1 + 1 + 1 + 1 + 1) = true := by
        rw [chain6]; exact hpre 6 (by omega)
      have e7 : g.results (g.callIdx + 1 + 1 + 1 + 1 + 1 + 1 + 1) = true := by
        rw [chain7]; exact hpre 7 (by omega)
      have f8 : g.results (g.callIdx + 1 + 1 + 1 + 1 + 1 + 1 + 1 + 1) = false := by
        rw [chain8]; exact hfail
      simp_all [eeprom_init, gpio_enable_port, gpio_config_digital_enable,
        gpio_config_alternate_function, gpio_config_port_control, gpio_config_open_drain,
        i2cMasterInit, gpioCall, eepromInitCalls]

lemma bw_mem (b a d : Nat) (st : BusState) (k : Nat) (rest : List Bool)
    (hb : i2cVerifyBaseAddr b = true) (hok : ∀ n, st.statuses n = I2CStatus.ok)
    (ha : a < 4096) :
    ∃ st1, eeprom_byte_write b a d st (List.replicate k false ++ true :: rest) =
      some (I2CStatus.ok, st1, rest) ∧
      st1.mem = (fun x => if x = a then d % 256 else st.mem x) ∧
      st1.statuses = st.statuses := by
  have h := bw_ok b a d st k rest hb hok
  refine ⟨_, h, ?_, rfl⟩
  funext x
  simp [dataState, loState, hiState, waitedState, probedState, setAddrState,
    pointer_arith a ha]

lemma br_mem (b a : Nat) (st : BusState) (k : Nat) (rest : List Bool)
    (hb : i2cVerifyBaseAddr b = true) (hok : ∀ n, st.statuses n = I2CStatus.ok)
    (ha : a < 4096) :
    ∃ st1, eeprom_byte_read b a st (List.replicate k false ++ true :: rest) =
        some (I2CStatus.ok, some (st.mem a), st1, rest) ∧
      st1.mem = st.mem ∧ st1.statuses = st.statuses := by
  have h := br_ok b a st k rest hb hok
  simp only [setAddrState, loState, hiState, waitedState, probedState, gotByteState] at h
  rw [pointer_arith a ha] at h
  exact ⟨_, h, rfl, rfl⟩

/-- Claim C1: on a bus model where every operation succeeds, writing a
byte at an address in the 4096-byte space and then reading the same
address returns exactly the byte written, for every address in
[0, 4095] and every byte value in [0, 255]. -/
theorem c1_write_read_roundtrip (bus a d : Nat) (st : BusState) (k1 k2 : Nat)
    (r1 r2 : List Bool) (hb : i2cVerifyBaseAddr bus = true)
    (ha : a ≤ 4095) (hd : d ≤ 255) (hok : ∀ n, st.statuses n = I2CStatus.ok) :
    ∃ st1 st2,
      eeprom_byte_write bus a d st (List.replicate k1 false ++ true :: r1) =
        some (I2CStatus.ok, st1, r1) ∧
      eeprom_byte_read bus a st1 (List.replicate k2 false ++ true :: r2) =
        some (I2CStatus.ok, some d, st2, r2) := by
  obtain ⟨st1, h1, hm1, hs1⟩ := bw_mem bus a d st k1 r1 hb hok (by omega)
  have hok1 : ∀ n, st1.statuses n = I2CStatus.ok := fun n => by rw [hs1]; exact hok n
  obtain ⟨st2, h2, hm2, hs2⟩ := br_mem bus a st1 k2 r2 hb hok1 (by omega)
  refine ⟨st1, st2, h1, ?_⟩
  rw [h2]
  have hv : st1.mem a = d := by
    rw [hm1]
    simp [Nat.mod_eq_of_lt (show d < 256 by omega)]
  rw [hv]

/-- Witness for C1 at the concrete demo offset 490 and byte value 65. -/
theorem c1_write_read_roundtrip_witness :
    i2cVerifyBaseAddr I2C1_BASE = true ∧ 490 ≤ 4095 ∧ 65 ≤ 255 ∧
    (∃ st1 st2,
      eeprom_byte_write I2C1_BASE 490 65 okBus (List.replicate 0 false ++ true :: []) =
        some (I2CStatus.ok, st1, []) ∧
      eeprom_byte_read I2C1_BASE 490 st1 (List.replicate 1 false ++ true :: []) =
        some (I2CStatus.ok, some 65, st2, [])) :=
  ⟨by decide, by decide, by decide,
    c1_write_read_roundtrip I2C1_BASE 490 65 okBus 0 1 [] [] (by decide) (by decide)
      (by decide) (fun n => rfl)⟩

/-- Claim C4: for every sequence of acknowledgment responses,
eeprom_wait_for_write probes exactly until the first acknowledgment:
when the device refuses k times and then acknowledges, the wait returns
after exactly k+1 probe transactions (one address-set entry followed by
exactly k+1 probe sends in the log) leaving the remaining responses
untouched, and when the device never acknowledges (every provided
response false) the wait has not returned, modelling unbounded blocking
with no timeout. -/
theorem c4_wait_polls_until_first_ack (b : Nat) (st : BusState) (k : Nat) (rest : List Bool)
    (acks2 : List Bool) (hb : i2cVerifyBaseAddr b = true)
    (hfalse : ∀ x ∈ acks2, x = false) :
    (∃ s st1, eeprom_wait_for_write b st (List.replicate k false ++ true :: rest) =
        some (s, st1, rest) ∧
      st1.log = st.log ++ opSetW :: List.replicate (k + 1) opProbe) ∧
    eeprom_wait_for_write b st acks2 = none := by
  constructor
  · refine ⟨_, _, waitSpec b st hb k rest, ?_⟩
    simp [waitedState, probedState, setAddrState, opSetW, opProbe]
  · exact waitNone b st acks2 hb hfalse

/-- Witness for C4 with two refusals before the acknowledgment and a
three-long all-false response list. -/
theorem c4_wait_polls_until_first_ack_witness :
    i2cVerifyBaseAddr I2C1_BASE = true ∧ (∀ x ∈ [false, false, false], x = false) ∧
    ((∃ s st1, eeprom_wait_for_write I2C1_BASE okBus
        (List.replicate 2 false ++ true :: [true]) = some (s, st1, [true]) ∧
      st1.log = okBus.log ++ opSetW :: List.replicate (2 + 1) opProbe) ∧
    eeprom_wait_for_write I2C1_BASE okBus [false, false, false] = none) :=
  ⟨by decide, by decide,
    c4_wait_polls_until_first_ack I2C1_BASE okBus 2 [true] [false, false, false]
      (by decide) (by decide)⟩

/-- Claim C6: if the bus reports a non-ok status on the first
address-set call inside eeprom_byte_write, the function returns that
status at once and the log gains only the address-set entry: no framed
send-byte operation is performed at all. -/
theorem c6_write_first_nack_no_sends (b a d : Nat) (st : BusState) (acks : List Bool)
    (s : I2CStatus) (hs : st.statuses st.opIdx = s) (hne : s ≠ I2CStatus.ok) :
    eeprom_byte_write b a d st acks =
      some (s, setAddrState st MCP24LC32AT_DEV_ID RW.write, acks) ∧
    (setAddrState st MCP24LC32AT_DEV_ID RW.write).log = st.log ++ [opSetW] := by
  constructor
  · unfold eeprom_byte_write
    simp only [waitWhileMasterBusy, setSlave_eq]
    rw [hs]
    simp [hne]
  · simp [setAddrState, opSetW]

/-- Witness for C6: a bus whose first operation reports
slave-no-acknowledge. -/
theorem c6_write_first_nack_no_sends_witness :
    nackBus.statuses nackBus.opIdx = I2CStatus.adrAckFail ∧
    I2CStatus.adrAckFail ≠ I2CStatus.ok ∧
    (eeprom_byte_write I2C1_BASE 7 35 nackBus [true] =
      some (I2CStatus.adrAckFail, setAddrState nackBus MCP24LC32AT_DEV_ID RW.write, [true]) ∧
    (setAddrState nackBus MCP24LC32AT_DEV_ID RW.write).log = nackBus.log ++ [opSetW]) :=
  ⟨rfl, by decide,
    c6_write_first_nack_no_sends I2C1_BASE 7 35 nackBus [true] I2CStatus.adrAckFail rfl
      (by decide)⟩

/-- Claim C9: eeprom_wait_for_write validates the bus handle and, on an
invalid handle, returns the invalid-bus status with the bus state
untouched (no transaction issued), whereas eeprom_byte_write and
eeprom_byte_read perform no such validation: handed the same invalid
handle (on an otherwise all-ok bus) they proceed to the busy poll and
issue their transactions, returning ok; only the probe transactions of
the wait are missing from their logs because the wait bailed out. -/
theorem c9_validation_asymmetry (b a d : Nat) (st : BusState) (acks : List Bool)
    (hinv : i2cVerifyBaseAddr b = false) (hok : ∀ n, st.statuses n = I2CStatus.ok) :
    eeprom_wait_for_write b st acks = some (I2CStatus.invalidBase, st, acks) ∧
    wrStatus (eeprom_byte_write b a d st acks) = some I2CStatus.ok ∧
    wrLog (eeprom_byte_write b a d st acks) =
      some (st.log ++ [opSetW, opHi a, opLo a, opData d]) ∧
    rdStatus (eeprom_byte_read b a st acks) = some I2CStatus.ok ∧
    rdLog (eeprom_byte_read b a st acks) =
      some (st.log ++ [opSetW, opHi a, opLo a, opSetR, opGet]) := by
  refine ⟨waitInvalid b st acks hinv, ?_, ?_, ?_, ?_⟩
  · rw [bw_inv b a d st acks hinv]
    simp [hok, wrStatus, setAddrState, hiState, loState, dataState]
  · rw [bw_inv b a d st acks hinv]
    simp [hok, wrLog, setAddrState, hiState, loState, dataState, opSetW, opHi, opLo, opData]
  · rw [br_inv b a st acks hinv]
    simp [hok, rdStatus, setAddrState, hiState, loState, gotByteState]
  · rw [br_inv b a st acks hinv]
    simp [hok, rdLog, setAddrState, hiState, loState, gotByteState, opSetW, opHi, opLo,
      opSetR, opGet]

/-- Witness for C9 at the invalid bus handle 0. -/
theorem c9_validation_asymmetry_witness :
    i2cVerifyBaseAddr 0 = false ∧
    (eeprom_wait_for_write 0 okBus [true] = some (I2CStatus.invalidBase, okBus, [true]) ∧
    wrStatus (eeprom_byte_write 0 490 65 okBus [true]) = some I2CStatus.ok ∧
    wrLog (eeprom_byte_write 0 490 65 okBus [true]) =
      some (okBus.log ++ [opSetW, opHi 490, opLo 490, opData 65]) ∧
    rdStatus (eeprom_byte_read 0 490 okBus [true]) = some I2CStatus.ok ∧
    rdLog (eeprom_byte_read 0 490 okBus [true]) =
      some (okBus.log ++ [opSetW, opHi 490, opLo 490, opSetR, opGet])) :=
  ⟨by decide, c9_validation_asymmetry 0 490 65 okBus [true] (by decide) (fun n => rfl)⟩

/-- Claim C10: every call to eeprom_byte_write or eeprom_byte_read that
reaches the write-complete wait on a valid bus issues the probe (an
extra address-set in write mode followed by a framed send of 0x00,
repeated once per poll iteration, hence at least once even when the
device acknowledges immediately at k = 0) strictly before any address
byte is sent, so the call log always contains the probe in addition to
the nominal address and data sequence. -/
theorem c10_probe_precedes_address (b a d : Nat) (st : BusState) (k : Nat)
    (rest : List Bool) (hb : i2cVerifyBaseAddr b = true)
    (hok : ∀ n, st.statuses n = I2CStatus.ok) :
    wrLog (eeprom_byte_write b a d st (List.replicate k false ++ true :: rest)) =
      some (st.log ++ opSetW :: opSetW :: (List.replicate (k + 1) opProbe ++
        [opHi a, opLo a, opData d])) ∧
    rdLog (eeprom_byte_read b a st (List.replicate k false ++ true :: rest)) =
      some (st.log ++ opSetW :: (List.replicate (k + 1) opProbe ++
        [opSetW, opHi a, opLo a, opSetR, opGet])) := by
  constructor
  · rw [bw_ok b a d st k rest hb hok]
    simp [wrLog, dataState, loState, hiState, waitedState, probedState, setAddrState,
      opSetW, opProbe, opHi, opLo, opData]
  · rw [br_ok b a st k rest hb hok]
    simp [rdLog, gotByteState, setAddrState, loState, hiState, waitedState, probedState,
      opSetW, opSetR, opProbe, opHi, opLo, opGet]

/-- Witness for C10 with an immediately acknowledging device (k = 0). -/
theorem c10_probe_precedes_address_witness :
    i2cVerifyBaseAddr I2C1_BASE = true ∧
    (wrLog (eeprom_byte_write I2C1_BASE 490 65 okBus
        (List.replicate 0 false ++ true :: [])) =
      some (okBus.log ++ opSetW :: opSetW :: (List.replicate (0 + 1) opProbe ++
        [opHi 490, opLo 490, opData 65])) ∧
    rdLog (eeprom_byte_read I2C1_BASE 490 okBus
        (List.replicate 0 false ++ true :: [])) =
      some (okBus.log ++ opSetW :: (List.replicate (0 + 1) opProbe ++
        [opSetW, opHi 490, opLo 490, opSetR, opGet]))) :=
  ⟨by decide,
    c10_probe_precedes_address I2C1_BASE 490 65 okBus 0 [] (by decide) (fun n => rfl)⟩

/-- Counterexample to claim C5 as stated: on a quiescent all-ok mock
bus whose device acknowledges immediately, the observable call log of
eeprom_byte_read at address 0 is the seven-entry list containing the
write-complete probe (an address-set plus a zero-byte framed send)
before the address bytes, not exactly the five-entry list
set-write-addr, send(high), send(low), set-read-addr, get-byte that the
claim asserts. -/
theorem c5_read_call_order_counterexample :
    rdLog (eeprom_byte_read I2C1_BASE 0 okBus [true]) =
      some [opSetW, opProbe, opSetW, opHi 0, opLo 0, opSetR, opGet] ∧
    ([opSetW, opProbe, opSetW, opHi 0, opLo 0, opSetR, opGet] : List BusOp) ≠
      [opSetW, opHi 0, opLo 0, opSetR, opGet] := by
  constructor
  · decide
  · decide

/-- Claim C5 (amended): eeprom_byte_read issues its bus calls in the
order: write-complete poll (one address-set in write mode and one
zero-byte probe send per poll iteration), then set slave address in
write mode, send high address byte, send low address byte, set slave
address in read mode, get one byte.  The address bytes are sent in
write mode strictly before the switch to read mode, and the observable
mock call log is exactly the poll entries followed by set-write-addr,
send(high), send(low), set-read-addr, get-byte. -/
theorem c5_read_call_order_amended (b a : Nat) (st : BusState) (k : Nat) (rest : List Bool)
    (hb : i2cVerifyBaseAddr b = true) (hok : ∀ n, st.statuses n = I2CStatus.ok) :
    rdLog (eeprom_byte_read b a st (List.replicate k false ++ true :: rest)) =
      some (st.log ++ opSetW :: (List.replicate (k + 1) opProbe ++
        [opSetW, opHi a, opLo a, opSetR, opGet])) := by
  rw [br_ok b a st k rest hb hok]
  simp [rdLog, gotByteState, setAddrState, loState, hiState, waitedState, probedState,
    opSetW, opSetR, opProbe, opHi, opLo, opGet]

/-- Witness for the amended C5 at address 0 on the quiescent all-ok bus. -/
theorem c5_read_call_order_amended_witness :
    i2cVerifyBaseAddr I2C1_BASE = true ∧
    rdLog (eeprom_byte_read I2C1_BASE 0 okBus (List.replicate 0 false ++ true :: [])) =
      some (okBus.log ++ opSetW :: (List.replicate (0 + 1) opProbe ++
        [opSetW, opHi 0, opLo 0, opSetR, opGet])) :=
  ⟨by decide, c5_read_call_order_amended I2C1_BASE 0 okBus 0 [] (by decide) (fun n => rfl)⟩

/-- Claim C3: the status returned by eeprom_wait_for_write is discarded
by both callers.  The value eeprom_byte_write returns, and the value
and data eeprom_byte_read return, are invariant under arbitrary changes
to the statuses drawn by the operations of the write-complete wait (the
wait address-set and every probe send), so a non-ok status produced
during that poll never reaches the caller.  For byte_write the wait
occupies operation indices opIdx+1 through opIdx+k+2, for byte_read
indices opIdx through opIdx+k+1, where k+1 probes are sent. -/
theorem c3_wait_status_discarded (b a d : Nat) (st : BusState) (σ1 σ2 : Nat → I2CStatus)
    (k : Nat) (rest : List Bool) (hb : i2cVerifyBaseAddr b = true) :
    ((∀ n, n < st.opIdx + 1 ∨ st.opIdx + k + 2 < n → σ1 n = σ2 n) →
      wrStatus (eeprom_byte_write b a d { st with statuses := σ1 }
          (List.replicate k false ++ true :: rest)) =
        wrStatus (eeprom_byte_write b a d { st with statuses := σ2 }
          (List.replicate k false ++ true :: rest))) ∧
    ((∀ n, n < st.opIdx ∨ st.opIdx + k + 1 < n → σ1 n = σ2 n) →
      rdStatus (eeprom_byte_read b a { st with statuses := σ1 }
          (List.replicate k false ++ true :: rest)) =
        rdStatus (eeprom_byte_read b a { st with statuses := σ2 }
          (List.replicate k false ++ true :: rest)) ∧
      rdData (eeprom_byte_read b a { st with statuses := σ1 }
          (List.replicate k false ++ true :: rest)) =
        rdData (eeprom_byte_read b a { st with statuses := σ2 }
          (List.replicate k false ++ true :: rest))) := by
  constructor
  · intro hagree
    have e0 : σ1 st.opIdx = σ2 st.opIdx := hagree _ (Or.inl (by omega))
    have e1 : σ1 (st.opIdx + 1 + 1 + (k + 1)) = σ2 (st.opIdx + 1 + 1 + (k + 1)) :=
      hagree _ (Or.inr (by omega))
    have e2 : σ1 (st.opIdx + 1 + 1 + (k + 1) + 1) = σ2 (st.opIdx + 1 + 1 + (k + 1) + 1) :=
      hagree _ (Or.inr (by omega))
    have e3 : σ1 (st.opIdx + 1 + 1 + (k + 1) + 1 + 1) =
        σ2 (st.opIdx + 1 + 1 + (k + 1) + 1 + 1) :=
      hagree _ (Or.inr (by omega))
    rw [bw_main b a d _ k rest hb, bw_main b a d _ k rest hb]
    simp only [wrStatus, waitedState, probedState, setAddrState, hiState, loState, dataState,
      apply_ite (Option.map (fun x : I2CStatus × BusState × List Bool => x.1)),
      Option.map_some']
    rw [e0, e1, e2, e3]
  · intro hagree
    have e0 : σ1 (st.opIdx + 1 + (k + 1)) = σ2 (st.opIdx + 1 + (k + 1)) :=
      hagree _ (Or.inr (by omega))
    have e1 : σ1 (st.opIdx + 1 + (k + 1) + 1) = σ2 (st.opIdx + 1 + (k + 1) + 1) :=
      hagree _ (Or.inr (by omega))
    have e2 : σ1 (st.opIdx + 1 + (k + 1) + 1 + 1) = σ2 (st.opIdx + 1 + (k + 1) + 1 + 1) :=
      hagree _ (Or.inr (by omega))
    have e3 : σ1 (st.opIdx + 1 + (k + 1) + 1 + 1 + 1) =
        σ2 (st.opIdx + 1 + (k + 1) + 1 + 1 + 1) :=
      hagree _ (Or.inr (by omega))
    have e4 : σ1 (st.opIdx + 1 + (k + 1) + 1 + 1 + 1 + 1) =
        σ2 (st.opIdx + 1 + (k + 1) + 1 + 1 + 1 + 1) :=
      hagree _ (Or.inr (by omega))
    constructor
    · rw [br_main b a _ k rest hb, br_main b a _ k rest hb]
      simp only [rdStatus, waitedState, probedState, setAddrState, hiState, loState,
        gotByteState,
        apply_ite (Option.map (fun x : I2CStatus × Option Nat × BusState × List Bool => x.1)),
        Option.map_some']
      rw [e0, e1, e2, e3, e4]
    · rw [br_main b a _ k rest hb, br_main b a _ k rest hb]
      simp only [rdData, waitedState, probedState, setAddrState, hiState, loState,
        gotByteState,
        apply_ite (Option.map (fun x : I2CStatus × Option Nat × BusState × List Bool => x.2.1)),
        Option.map_some']
      rw [e0, e1, e2, e3]

/-- Witness for C3: keeping every status ok versus injecting a
controller error at operation index 2 (the probe send of the wait
inside byte_write) leaves the status byte_write returns unchanged. -/
theorem c3_wait_status_discarded_witness :
    i2cVerifyBaseAddr I2C1_BASE = true ∧
    wrStatus (eeprom_byte_write I2C1_BASE 0 0 { okBus with statuses := okBus.statuses }
        (List.replicate 0 false ++ true :: [])) =
      wrStatus (eeprom_byte_write I2C1_BASE 0 0
        { okBus with statuses := probeFaultBus.statuses }
        (List.replicate 0 false ++ true :: [])) := by
  refine ⟨by decide, (c3_wait_status_discarded I2C1_BASE 0 0 okBus okBus.statuses
    probeFaultBus.statuses 0 [] (by decide)).1 ?_⟩
  intro n h
  simp only [okBus] at h
  have hn : n ≠ 2 := by omega
  simp [okBus, probeFaultBus, hn]

/-- Counterexample to claim C2 as stated: on a bus whose third bus
operation (the zero-byte probe send issued inside the write-complete
wait of eeprom_byte_write, operation index 2) reports a controller
error while the device acknowledges, byte_write does not return that
first non-ok status: it returns ok and performs three further framed
sends, as the six-entry call log shows. -/
theorem c2_short_circuit_counterexample :
    probeFaultBus.statuses 2 = I2CStatus.error ∧
    I2CStatus.error ≠ I2CStatus.ok ∧
    wrStatus (eeprom_byte_write I2C1_BASE 0 0 probeFaultBus [true]) = some I2CStatus.ok ∧
    wrLog (eeprom_byte_write I2C1_BASE 0 0 probeFaultBus [true]) =
      some [opSetW, opSetW, opProbe, opHi 0, opLo 0, opData 0] := by
  refine ⟨rfl, by decide, by decide, by decide⟩

/-- Claim C2 (amended): eeprom_byte_write and eeprom_byte_read
short-circuit on the first status-checked bus operation whose status is
not ok and return that status directly to the caller, performing no
further bus operations; when every checked operation returns ok the
result is the status of the last operation attempted.  The operations
issued inside the write-complete wait are excluded: their statuses are
drawn and discarded (claim C3), so they neither short-circuit nor reach
the caller.  Indices: with k+1 probe sends, the checked operations of
byte_write sit at opIdx (address-set) and opIdx+k+3, opIdx+k+4,
opIdx+k+5 (the three framed sends); those of byte_read at opIdx+k+2
(address-set write), opIdx+k+3, opIdx+k+4, opIdx+k+5 (address-set
read), opIdx+k+6 (framed get). -/
theorem c2_short_circuit_amended (b a d : Nat) (st : BusState) (k : Nat) (rest : List Bool)
    (hb : i2cVerifyBaseAddr b = true) :
    ((st.statuses st.opIdx ≠ I2CStatus.ok →
      eeprom_byte_write b a d st (List.replicate k false ++ true :: rest) =
        some (st.statuses st.opIdx, setAddrState st MCP24LC32AT_DEV_ID RW.write,
          List.replicate k false ++ true :: rest)) ∧
     (st.statuses st.opIdx = I2CStatus.ok →
      st.statuses (st.opIdx + (k + 3)) ≠ I2CStatus.ok →
      wrStatus (eeprom_byte_write b a d st (List.replicate k false ++ true :: rest)) =
        some (st.statuses (st.opIdx + (k + 3))) ∧
      wrLog (eeprom_byte_write b a d st (List.replicate k false ++ true :: rest)) =
        some (st.log ++ opSetW :: opSetW ::
          (List.replicate (k + 1) opProbe ++ [opHi a]))) ∧
     (st.statuses st.opIdx = I2CStatus.ok →
      st.statuses (st.opIdx + (k + 3)) = I2CStatus.ok →
      st.statuses (st.opIdx + (k + 4)) ≠ I2CStatus.ok →
      wrStatus (eeprom_byte_write b a d st (List.replicate k false ++ true :: rest)) =
        some (st.statuses (st.opIdx + (k + 4))) ∧
      wrLog (eeprom_byte_write b a d st (List.replicate k false ++ true :: rest)) =
        some (st.log ++ opSetW :: opSetW ::
          (List.replicate (k + 1) opProbe ++ [opHi a, opLo a]))) ∧
     (st.statuses st.opIdx = I2CStatus.ok →
      st.statuses (st.opIdx + (k + 3)) = I2CStatus.ok →
      st.statuses (st.opIdx + (k + 4)) = I2CStatus.ok →
      wrStatus (eeprom_byte_write b a d st (List.replicate k false ++ true :: rest)) =
        some (st.statuses (st.opIdx + (k + 5))) ∧
      wrLog (eeprom_byte_write b a d st (List.replicate k false ++ true :: rest)) =
        some (st.log ++ opSetW :: opSetW ::
          (List.replicate (k + 1) opProbe ++ [opHi a, opLo a, opData d])))) ∧
    ((st.statuses (st.opIdx + (k + 2)) ≠ I2CStatus.ok →
      rdStatus (eeprom_byte_read b a st (List.replicate k false ++ true :: rest)) =
        some (st.statuses (st.opIdx + (k + 2))) ∧
      rdLog (eeprom_byte_read b a st (List.replicate k false ++ true :: rest)) =
        some (st.log ++ opSetW :: (List.replicate (k + 1) opProbe ++ [opSetW]))) ∧
     (st.statuses (st.opIdx + (k + 2)) = I2CStatus.ok →
      st.statuses (st.opIdx + (k + 3)) ≠ I2CStatus.ok →
      rdStatus (eeprom_byte_read b a st (List.replicate k false ++ true :: rest)) =
        some (st.statuses (st.opIdx + (k + 3))) ∧
      rdLog (eeprom_byte_read b a st (List.replicate k false ++ true :: rest)) =
        some (st.log ++ opSetW :: (List.replicate (k + 1) opProbe ++ [opSetW, opHi a]))) ∧
     (st.statuses (st.opIdx + (k + 2)) = I2CStatus.ok →
      st.statuses (st.opIdx + (k + 3)) = I2CStatus.ok →
      st.statuses (st.opIdx + (k + 4)) ≠ I2CStatus.ok →
      rdStatus (eeprom_byte_read b a st (List.replicate k false ++ true :: rest)) =
        some (st.statuses (st.opIdx + (k + 4))) ∧
      rdLog (eeprom_byte_read b a st (List.replicate k false ++ true :: rest)) =
        some (st.log ++ opSetW ::
          (List.replicate (k + 1) opProbe ++ [opSetW, opHi a, opLo a]))) ∧
     (st.statuses (st.opIdx + (k + 2)) = I2CStatus.ok →
      st.statuses (st.opIdx + (k + 3)) = I2CStatus.ok →
      st.statuses (st.opIdx + (k + 4)) = I2CStatus.ok →
      st.statuses (st.opIdx + (k + 5)) ≠ I2CStatus.ok →
      rdStatus (eeprom_byte_read b a st (List.replicate k false ++ true :: rest)) =
        some (st.statuses (st.opIdx + (k + 5))) ∧
      rdLog (eeprom_byte_read b a st (List.replicate k false ++ true :: rest)) =
        some (st.log ++ opSetW ::
          (List.replicate (k + 1) opProbe ++ [opSetW, opHi a, opLo a, opSetR]))) ∧
     (st.statuses (st.opIdx + (k + 2)) = I2CStatus.ok →
      st.statuses (st.opIdx + (k + 3)) = I2CStatus.ok →
      st.statuses (st.opIdx + (k + 4)) = I2CStatus.ok →
      st.statuses (st.opIdx + (k + 5)) = I2CStatus.ok →
      rdStatus (eeprom_byte_read b a st (List.replicate k false ++ true :: rest)) =
        some (st.statuses (st.opIdx + (k + 6))) ∧
      rdLog (eeprom_byte_read b a st (List.replicate k false ++ true :: rest)) =
        some (st.log ++ opSetW ::
          (List.replicate (k + 1) opProbe ++ [opSetW, opHi a, opLo a, opSetR, opGet])))) := by
  have hx3 : st.opIdx + 1 + 1 + (k + 1) = st.opIdx + (k + 3) := by omega
  have hx4 : st.opIdx + (k + 3) + 1 = st.opIdx + (k + 4) := by omega
  have hx5 : st.opIdx + (k + 4) + 1 = st.opIdx + (k + 5) := by omega
  have hr2 : st.opIdx + 1 + (k + 1) = st.opIdx + (k + 2) := by omega
  have hr3 : st.opIdx + (k + 2) + 1 = st.opIdx + (k + 3) := by omega
  have hr4 : st.opIdx + (k + 3) + 1 = st.opIdx + (k + 4) := by omega
  have hr5 : st.opIdx + (k + 4) + 1 = st.opIdx + (k + 5) := by omega
  have hr6 : st.opIdx + (k + 5) + 1 = st.opIdx + (k + 6) := by omega
  refine ⟨⟨?_, ?_, ?_, ?_⟩, ?_, ?_, ?_, ?_, ?_⟩
  · intro h0
    rw [bw_main b a d st k rest hb]
    simp [h0]
  · intro h0 h1
    rw [bw_main b a d st k rest hb]
    simp only [waitedState, probedState, setAddrState, hiState, loState, dataState,
      hx3, hx4, hx5]
    simp [h0, h1, wrStatus, wrLog, opSetW, opProbe, opHi]
  · intro h0 h1 h2
    rw [bw_main b a d st k rest hb]
    simp only [waitedState, probedState, setAddrState, hiState, loState, dataState,
      hx3, hx4, hx5]
    simp [h0, h1, h2, wrStatus, wrLog, opSetW, opProbe, opHi, opLo]
  · intro h0 h1 h2
    rw [bw_main b a d st k rest hb]
    simp only [waitedState, probedState, setAddrState, hiState, loState, dataState,
      hx3, hx4, hx5]
    simp [h0, h1, h2, wrStatus, wrLog, opSetW, opProbe, opHi, opLo, opData]
  · intro h0
    rw [br_main b a st k rest hb]
    simp only [waitedState, probedState, setAddrState, hiState, loState, gotByteState,
      hr2, hr3, hr4, hr5, hr6]
    simp [h0, rdStatus, rdLog, opSetW, opProbe]
  · intro h0 h1
    rw [br_main b a st k rest hb]
    simp only [waitedState, probedState, setAddrState, hiState, loState, gotByteState,
      hr2, hr3, hr4, hr5, hr6]
    simp [h0, h1, rdStatus, rdLog, opSetW, opProbe, opHi]
  · intro h0 h1 h2
    rw [br_main b a st k rest hb]
    simp only [waitedState, probedState, setAddrState, hiState, loState, gotByteState,
      hr2, hr3, hr4, hr5, hr6]
    simp [h0, h1, h2, rdStatus, rdLog, opSetW, opProbe, opHi, opLo]
  · intro h0 h1 h2 h3
    rw [br_main b a st k rest hb]
    simp only [waitedState, probedState, setAddrState, hiState, loState, gotByteState,
      hr2, hr3, hr4, hr5, hr6]
    simp [h0, h1, h2, h3, rdStatus, rdLog, opSetW, opProbe, opHi, opLo, opSetR]
  · intro h0 h1 h2 h3
    rw [br_main b a st k rest hb]
    simp only [waitedState, probedState, setAddrState, hiState, loState, gotByteState,
      hr2, hr3, hr4, hr5, hr6]
    simp [h0, h1, h2, h3, rdStatus, rdLog, opSetW, opProbe, opHi, opLo, opSetR, opGet]

/-- Witness for the amended C2: on the quiescent all-ok bus the final
conjunct yields the status of the last operation attempted together
with the full call log. -/
theorem c2_short_circuit_amended_witness :
    i2cVerifyBaseAddr I2C1_BASE = true ∧
    (wrStatus (eeprom_byte_write I2C1_BASE 490 65 okBus
        (List.replicate 0 false ++ true :: [])) =
      some (okBus.statuses (okBus.opIdx + (0 + 5))) ∧
    wrLog (eeprom_byte_write I2C1_BASE 490 65 okBus
        (List.replicate 0 false ++ true :: [])) =
      some (okBus.log ++ opSetW :: opSetW :: (List.replicate (0 + 1) opProbe ++
        [opHi 490, opLo 490, opData 65]))) :=
  ⟨by decide,
    (c2_short_circuit_amended I2C1_BASE 490 65 okBus 0 [] (by decide)).1.2.2.2 rfl rfl rfl⟩

/-- Claim C8: on a bus model where every operation succeeds, writing a
string byte by byte at consecutive addresses starting at offset a (as
write_to_eeprom does) and then reading single bytes sequentially at
a, a+1, ..., a+len-1 (as the demo read-back loop does) reproduces the
string exactly, whenever the string fits inside the 4096-byte address
space. -/
theorem c8_string_roundtrip (s : List Nat) (a : Nat) (st : BusState) (r1 r2 : List Bool)
    (hlen : a + s.length ≤ 4096) (hbytes : ∀ c ∈ s, c ≤ 255)
    (hok : ∀ n, st.statuses n = I2CStatus.ok) :
    ∃ st1 st2,
      write_to_eeprom s a st (List.replicate s.length true ++ r1) = some (st1, r1) ∧
      readBackLoop a s.length st1 (List.replicate s.length true ++ r2) =
        some (s, st2, r2) := by
  obtain ⟨st1, h1, hm1, hs1⟩ := write_seq_mem s a st r1 hok hlen
  have hok1 : ∀ n, st1.statuses n = I2CStatus.ok := fun n => by rw [hs1]; exact hok n
  have hmem : ∀ i, i < s.length → st1.mem (a + i) = s.getD i 0 := by
    intro i hi
    rw [hm1 (a + i)]
    have hc : a ≤ a + i ∧ a + i < a + s.length := by omega
    rw [if_pos hc, show a + i - a = i by omega]
    have hle : s.getD i 0 ≤ 255 := by
      rw [List.getD_eq_getElem s 0 hi]
      exact hbytes _ (List.getElem_mem hi)
    exact Nat.mod_eq_of_lt (by omega)
  obtain ⟨st2, h2⟩ := read_seq_vals s a st1 r2 hok1 hlen hmem
  exact ⟨st1, st2, h1, h2⟩

/-- Witness for C8 with the four-byte string Test at the demo offset
490. -/
theorem c8_string_roundtrip_witness :
    490 + ([84, 101, 115, 116] : List Nat).length ≤ 4096 ∧
    (∀ c ∈ ([84, 101, 115, 116] : List Nat), c ≤ 255) ∧
    (∃ st1 st2,
      write_to_eeprom [84, 101, 115, 116] 490 okBus
        (List.replicate ([84, 101, 115, 116] : List Nat).length true ++ []) =
        some (st1, []) ∧
      readBackLoop 490 ([84, 101, 115, 116] : List Nat).length st1
        (List.replicate ([84, 101, 115, 116] : List Nat).length true ++ []) =
        some ([84, 101, 115, 116], st2, [])) :=
  ⟨by decide, by decide,
    c8_string_roundtrip [84, 101, 115, 116] 490 okBus [] [] (by decide) (by decide)
      (fun n => rfl)⟩

/-- Witness for C7 on a mock GPIO layer where every configuration call
succeeds: eeprom_init returns true and the log holds all nine calls. -/
theorem c7_init_short_circuit_witness :
    (∀ i, i < 9 → okGpio.results (okGpio.callIdx + i) = true) ∧
    ((eeprom_init okGpio).1 = true ∧
      (eeprom_init okGpio).2.log = okGpio.log ++ eepromInitCalls) :=
  ⟨fun i h => rfl, (c7_init_short_circuit okGpio).1 (fun i h => rfl)⟩
